import Mathlib

/-!
Verification of the pyqmc superposition combiner (`pyqmc/superposewf.py`)
and the radial 3d-function family (`pyqmc/func3d.py`).

Machine floating point is idealised as the real numbers; complex-valued
signs/coefficients are modelled in `ℂ`.  A batch of `n+1` configurations for
`m+1` wavefunction components is modelled by functions on `Fin (m+1)` and
`Fin (n+1)` (numpy arrays of shape `(ncomp, nconf)`); the succ-shaped sizes
record that `np.amax` over an empty axis is an error, so both axes are
nonempty.
-/

namespace SuperposeWF

/-- Embedding of `ref = np.amax(wf_vals[:,1,:]).real` (superposewf.py lines
21, 42, 59, 80): the maximum of the components' log-magnitudes over ALL
components and ALL configurations — a single scalar.  (Stacking the
`(sign, logabs)` pairs into one array can make the dtype complex, in which
case numpy's `amax` orders lexicographically by real part first and `.real`
recovers the maximal real part; the log-magnitudes themselves are real, so
we model them directly in `ℝ`.) -/
noncomputable def ref {m n : ℕ} (l : Fin (m + 1) → Fin (n + 1) → ℝ) : ℝ :=
  Finset.univ.sup' Finset.univ_nonempty (fun p : Fin (m + 1) × Fin (n + 1) => l p.1 p.2)

/-- The rescaled combined amplitude
`S_j = Σ_i coeffs_i · sign_{i,j} · exp(logabs_{i,j} − ref)` for an explicit
reference `ref` — the einsum `'i,ij,ij->j'` of superposewf.py lines 22, 43,
60, 81. -/
noncomputable def Sval {m n : ℕ} (c : Fin (m + 1) → ℂ)
    (s : Fin (m + 1) → Fin (n + 1) → ℂ) (l : Fin (m + 1) → Fin (n + 1) → ℝ)
    (ref : ℝ) (j : Fin (n + 1)) : ℂ :=
  ∑ i, c i * s i j * Complex.ofReal (Real.exp (l i j - ref))

/-- `wf_sign = wf_val / np.abs(wf_val)` for an explicit reference. -/
noncomputable def signWithRef {m n : ℕ} (c : Fin (m + 1) → ℂ)
    (s : Fin (m + 1) → Fin (n + 1) → ℂ) (l : Fin (m + 1) → Fin (n + 1) → ℝ)
    (ref : ℝ) (j : Fin (n + 1)) : ℂ :=
  Sval c s l ref j / Complex.ofReal (Complex.abs (Sval c s l ref j))

/-- `wf_val = np.log(np.abs(wf_val)) + ref` for an explicit reference. -/
noncomputable def logabsWithRef {m n : ℕ} (c : Fin (m + 1) → ℂ)
    (s : Fin (m + 1) → Fin (n + 1) → ℂ) (l : Fin (m + 1) → Fin (n + 1) → ℝ)
    (ref : ℝ) (j : Fin (n + 1)) : ℝ :=
  Real.log (Complex.abs (Sval c s l ref j)) + ref

/-- The combined sign as computed by `recompute` (lines 20-25) and `value`
(lines 41-46), which instantiate the stable combination at `ref l`. -/
noncomputable def wf_sign {m n : ℕ} (c : Fin (m + 1) → ℂ)
    (s : Fin (m + 1) → Fin (n + 1) → ℂ) (l : Fin (m + 1) → Fin (n + 1) → ℝ)
    (j : Fin (n + 1)) : ℂ :=
  signWithRef c s l (ref l) j

/-- The combined log-magnitude as computed by `recompute` and `value`. -/
noncomputable def wf_logabs {m n : ℕ} (c : Fin (m + 1) → ℂ)
    (s : Fin (m + 1) → Fin (n + 1) → ℂ) (l : Fin (m + 1) → Fin (n + 1) → ℝ)
    (j : Fin (n + 1)) : ℝ :=
  logabsWithRef c s l (ref l) j

/-- Embedding of the per-component, per-configuration entries produced by
`ratio_current_config` (superposewf.py line 63):
`ratio[i,j] = coeffs_i · (sign_{i,j}/wf_sign_j) · exp(logabs_{i,j} − wf_logabs_j)`.
The trailing `np.squeeze` reshaping (line 64) does not change the entries and
is modelled separately at the shape level. -/
noncomputable def ratio_current_config {m n : ℕ} (c : Fin (m + 1) → ℂ)
    (s : Fin (m + 1) → Fin (n + 1) → ℂ) (l : Fin (m + 1) → Fin (n + 1) → ℝ)
    (i : Fin (m + 1)) (j : Fin (n + 1)) : ℂ :=
  c i * (s i j / wf_sign c s l j) *
    Complex.ofReal (Real.exp (l i j - wf_logabs c s l j))

end SuperposeWF

/-- C1: Decomposition of unity — for every combiner (coefficients and
component `(sign, logabs)` batches of equal length) and every configuration
`j` at which the combined amplitude is nonzero (away from a wavefunction
node), the per-component entries of `ratio_current_config` sum to exactly 1
across components. -/
theorem superpose_ratio_current_config_sum_one {m n : ℕ}
    (c : Fin (m + 1) → ℂ) (s : Fin (m + 1) → Fin (n + 1) → ℂ)
    (l : Fin (m + 1) → Fin (n + 1) → ℝ) (j : Fin (n + 1))
    (hS : SuperposeWF.Sval c s l (SuperposeWF.ref l) j ≠ 0) :
    ∑ i, SuperposeWF.ratio_current_config c s l i j = 1 := by
  set R := SuperposeWF.ref l with hR
  set S := SuperposeWF.Sval c s l R j with hSdef
  have hA : Complex.abs S ≠ 0 := Complex.abs.ne_zero hS
  have hApos : 0 < Complex.abs S := Complex.abs.pos hS
  have hAc : (Complex.ofReal (Complex.abs S)) ≠ 0 := by
    exact_mod_cast Complex.ofReal_ne_zero.mpr hA
  have key : ∀ i, SuperposeWF.ratio_current_config c s l i j
      = (c i * s i j * Complex.ofReal (Real.exp (l i j - R))) / S := by
    intro i
    unfold SuperposeWF.ratio_current_config SuperposeWF.wf_sign
      SuperposeWF.wf_logabs SuperposeWF.signWithRef SuperposeWF.logabsWithRef
    rw [← hR, ← hSdef]
    have harg : l i j - (Real.log (Complex.abs S) + R)
        = (l i j - R) - Real.log (Complex.abs S) := by ring
    rw [harg, Real.exp_sub, Real.exp_log hApos, Complex.ofReal_div]
    field_simp
    ring
  calc ∑ i, SuperposeWF.ratio_current_config c s l i j
      = ∑ i, (c i * s i j * Complex.ofReal (Real.exp (l i j - R))) / S :=
        Finset.sum_congr rfl (fun i _ => key i)
    _ = (∑ i, c i * s i j * Complex.ofReal (Real.exp (l i j - R))) / S :=
        (Finset.sum_div _ _ _).symm
    _ = S / S := rfl
    _ = 1 := div_self hS

/-- Witness for C1 at a concrete one-component, one-configuration input. -/
theorem superpose_ratio_current_config_sum_one_witness :
    @SuperposeWF.Sval 0 0 (fun _ => 1) (fun _ _ => 1) (fun _ _ => 0)
      (@SuperposeWF.ref 0 0 (fun _ _ => 0)) 0 ≠ 0 ∧
    ∑ i, @SuperposeWF.ratio_current_config 0 0 (fun _ => 1)
      (fun _ _ => 1) (fun _ _ => 0) i 0 = 1 := by
  have h : @SuperposeWF.Sval 0 0 (fun _ => 1) (fun _ _ => 1)
      (fun _ _ => 0) (@SuperposeWF.ref 0 0 (fun _ _ => 0)) 0 ≠ 0 := by
    unfold SuperposeWF.Sval
    simp only [Fin.sum_univ_succ, Finset.univ_eq_empty, Finset.sum_empty,
      add_zero, one_mul]
    exact Complex.ofReal_ne_zero.mpr (Real.exp_ne_zero _)
  exact ⟨h, superpose_ratio_current_config_sum_one _ _ _ _ h⟩

namespace SuperposeWF

theorem Sval_shift {m n : ℕ} (c : Fin (m + 1) → ℂ)
    (s : Fin (m + 1) → Fin (n + 1) → ℂ) (l : Fin (m + 1) → Fin (n + 1) → ℝ)
    (r δ : ℝ) (j : Fin (n + 1)) :
    Sval c s l (r + δ) j = Sval c s l r j * Complex.ofReal (Real.exp (-δ)) := by
  unfold Sval
  rw [Finset.sum_mul]
  refine Finset.sum_congr rfl fun i _ => ?_
  have harg : l i j - (r + δ) = (l i j - r) + (-δ) := by ring
  rw [harg, Real.exp_add, Complex.ofReal_mul]
  ring

theorem signWithRef_shift {m n : ℕ} (c : Fin (m + 1) → ℂ)
    (s : Fin (m + 1) → Fin (n + 1) → ℂ) (l : Fin (m + 1) → Fin (n + 1) → ℝ)
    (r δ : ℝ) (j : Fin (n + 1)) :
    signWithRef c s l (r + δ) j = signWithRef c s l r j := by
  unfold signWithRef
  rw [Sval_shift]
  have hx : (0 : ℝ) < Real.exp (-δ) := Real.exp_pos _
  rw [map_mul, Complex.abs_ofReal, abs_of_pos hx, Complex.ofReal_mul,
    mul_div_mul_right _ _ (Complex.ofReal_ne_zero.mpr (ne_of_gt hx))]

theorem logabsWithRef_shift {m n : ℕ} (c : Fin (m + 1) → ℂ)
    (s : Fin (m + 1) → Fin (n + 1) → ℂ) (l : Fin (m + 1) → Fin (n + 1) → ℝ)
    (r δ : ℝ) (j : Fin (n + 1)) (hS : Sval c s l r j ≠ 0) :
    logabsWithRef c s l (r + δ) j = logabsWithRef c s l r j := by
  unfold logabsWithRef
  rw [Sval_shift, map_mul, Complex.abs_ofReal,
    abs_of_pos (Real.exp_pos (-δ)),
    Real.log_mul (Complex.abs.ne_zero hS) (Real.exp_ne_zero _),
    Real.log_exp]
  ring

end SuperposeWF

/-- C2: Reference-shift invariance — the `(sign, logabs)` pair produced by
the stable combination algorithm of `recompute`/`value` is unchanged if an
arbitrary constant additive shift `δ` is applied to the internal reference
before exponentiation, at every configuration where the combined amplitude
is nonzero. -/
theorem superpose_ref_shift_invariance {m n : ℕ} (c : Fin (m + 1) → ℂ)
    (s : Fin (m + 1) → Fin (n + 1) → ℂ) (l : Fin (m + 1) → Fin (n + 1) → ℝ)
    (δ : ℝ) (j : Fin (n + 1))
    (hS : SuperposeWF.Sval c s l (SuperposeWF.ref l) j ≠ 0) :
    SuperposeWF.signWithRef c s l (SuperposeWF.ref l + δ) j
      = SuperposeWF.wf_sign c s l j ∧
    SuperposeWF.logabsWithRef c s l (SuperposeWF.ref l + δ) j
      = SuperposeWF.wf_logabs c s l j :=
  ⟨SuperposeWF.signWithRef_shift c s l _ δ j,
   SuperposeWF.logabsWithRef_shift c s l _ δ j hS⟩

/-- Witness for C2 at a concrete one-component, one-configuration input,
with shift `δ = 5`. -/
theorem superpose_ref_shift_invariance_witness :
    @SuperposeWF.Sval 0 0 (fun _ => 1) (fun _ _ => 1) (fun _ _ => 0)
      (@SuperposeWF.ref 0 0 (fun _ _ => 0)) 0 ≠ 0 ∧
    (@SuperposeWF.signWithRef 0 0 (fun _ => 1) (fun _ _ => 1) (fun _ _ => 0)
      (@SuperposeWF.ref 0 0 (fun _ _ => 0) + 5) 0
      = @SuperposeWF.wf_sign 0 0 (fun _ => 1) (fun _ _ => 1) (fun _ _ => 0) 0 ∧
    @SuperposeWF.logabsWithRef 0 0 (fun _ => 1) (fun _ _ => 1) (fun _ _ => 0)
      (@SuperposeWF.ref 0 0 (fun _ _ => 0) + 5) 0
      = @SuperposeWF.wf_logabs 0 0 (fun _ => 1) (fun _ _ => 1) (fun _ _ => 0) 0) := by
  have h : @SuperposeWF.Sval 0 0 (fun _ => 1) (fun _ _ => 1)
      (fun _ _ => 0) (@SuperposeWF.ref 0 0 (fun _ _ => 0)) 0 ≠ 0 := by
    unfold SuperposeWF.Sval
    simp only [Fin.sum_univ_succ, Finset.univ_eq_empty, Finset.sum_empty,
      add_zero, one_mul]
    exact Complex.ofReal_ne_zero.mpr (Real.exp_ne_zero _)
  exact ⟨h, superpose_ref_shift_invariance _ _ _ 5 0 h⟩

namespace SuperposeWF

/-- Modelled from the spec's words for comparison (refinement check for the
claim that `ref` is "a per-configuration, cross-component maximum"): the
maximum of the log-magnitudes over the components only, separately for each
configuration `j`. -/
noncomputable def specPerConfigRef {m n : ℕ}
    (l : Fin (m + 1) → Fin (n + 1) → ℝ) (j : Fin (n + 1)) : ℝ :=
  Finset.univ.sup' Finset.univ_nonempty (fun i : Fin (m + 1) => l i j)

/-- A concrete 2-component, 2-configuration batch of log-magnitudes on which
the code's global `ref` differs from a per-configuration maximum. -/
def refCounterLog : Fin 2 → Fin 2 → ℝ :=
  fun i j => if i = 1 ∧ j = 1 then 1 else 0

end SuperposeWF

/-- C6 counterexample: on the concrete batch `refCounterLog` the reference
computed by the code (`np.amax` over the whole array — a single scalar) is
not the per-configuration, cross-component maximum at configuration 0: the
code's `ref` is 1 (attained at configuration 1) while the per-configuration
maximum at configuration 0 is 0. -/
theorem superpose_ref_not_per_config :
    SuperposeWF.ref SuperposeWF.refCounterLog
      ≠ SuperposeWF.specPerConfigRef SuperposeWF.refCounterLog 0 := by
  have h1 : SuperposeWF.ref SuperposeWF.refCounterLog = 1 := by
    unfold SuperposeWF.ref
    refine le_antisymm (Finset.sup'_le _ _ ?_) ?_
    · rintro ⟨i, j⟩ -
      fin_cases i <;> fin_cases j <;> norm_num [SuperposeWF.refCounterLog]
    · calc (1 : ℝ) = SuperposeWF.refCounterLog 1 1 := by
            norm_num [SuperposeWF.refCounterLog]
        _ ≤ _ := Finset.le_sup'
            (fun p : Fin 2 × Fin 2 => SuperposeWF.refCounterLog p.1 p.2)
            (Finset.mem_univ ((1 : Fin 2), (1 : Fin 2)))
  have h2 : SuperposeWF.specPerConfigRef SuperposeWF.refCounterLog 0 = 0 := by
    unfold SuperposeWF.specPerConfigRef
    refine le_antisymm (Finset.sup'_le _ _ ?_) ?_
    · intro i _
      fin_cases i <;> norm_num [SuperposeWF.refCounterLog]
    · calc (0 : ℝ) = SuperposeWF.refCounterLog 0 0 := by
            norm_num [SuperposeWF.refCounterLog]
        _ ≤ _ := Finset.le_sup'
            (fun i : Fin 2 => SuperposeWF.refCounterLog i 0)
            (Finset.mem_univ (0 : Fin 2))
  rw [h1, h2]
  norm_num

/-- C6 amended: in the stable combination algorithm the internal reference
`ref` is the single global maximum of the components' (real) log-magnitudes
over ALL components and ALL configurations — one scalar, shared by every
configuration of the batch: it bounds every entry and is attained by some
entry. -/
theorem superpose_ref_global_max {m n : ℕ}
    (l : Fin (m + 1) → Fin (n + 1) → ℝ) :
    (∀ i j, l i j ≤ SuperposeWF.ref l) ∧
    ∃ i j, SuperposeWF.ref l = l i j := by
  constructor
  · intro i j
    exact Finset.le_sup' (fun p : Fin (m + 1) × Fin (n + 1) => l p.1 p.2)
      (Finset.mem_univ (i, j))
  · obtain ⟨p, -, heq⟩ := Finset.exists_mem_eq_sup'
      (Finset.univ_nonempty)
      (fun p : Fin (m + 1) × Fin (n + 1) => l p.1 p.2)
    exact ⟨p.1, p.2, heq⟩

/-- C7: Degenerate-coefficient reduction — with coefficients `[1, 0]` over
two components `[A, B]`, the `(sign, logabs)` pair returned by the
combiner's `value()` equals component `A`'s `(sign, logabs)` exactly, at
every configuration, for every cached state in which `A`'s sign is a
unit-modulus scalar (the data-model invariant for signs). -/
theorem superpose_degenerate_coeff_value {n : ℕ}
    (sA sB : Fin (n + 1) → ℂ) (lA lB : Fin (n + 1) → ℝ) (j : Fin (n + 1))
    (hA : Complex.abs (sA j) = 1) :
    SuperposeWF.wf_sign ![(1 : ℂ), 0] ![sA, sB] ![lA, lB] j = sA j ∧
    SuperposeWF.wf_logabs ![(1 : ℂ), 0] ![sA, sB] ![lA, lB] j = lA j := by
  set R := SuperposeWF.ref ![lA, lB] with hR
  have hSval : SuperposeWF.Sval ![(1 : ℂ), 0] ![sA, sB] ![lA, lB] R j
      = sA j * Complex.ofReal (Real.exp (lA j - R)) := by
    unfold SuperposeWF.Sval
    rw [Fin.sum_univ_two]
    simp
  have habs : Complex.abs (sA j * Complex.ofReal (Real.exp (lA j - R)))
      = Real.exp (lA j - R) := by
    rw [map_mul, hA, one_mul, Complex.abs_ofReal,
      abs_of_pos (Real.exp_pos _)]
  constructor
  · unfold SuperposeWF.wf_sign SuperposeWF.signWithRef
    rw [← hR, hSval, habs, mul_div_assoc,
      div_self (Complex.ofReal_ne_zero.mpr (Real.exp_ne_zero _)), mul_one]
  · unfold SuperposeWF.wf_logabs SuperposeWF.logabsWithRef
    rw [← hR, hSval, habs, Real.log_exp]
    ring

/-- Witness for C7 with component `A` having sign 1 and log-magnitude 0, and
component `B` having sign 1 and log-magnitude 7, in a single-configuration
batch. -/
theorem superpose_degenerate_coeff_value_witness :
    Complex.abs (1 : ℂ) = 1 ∧
    (@SuperposeWF.wf_sign 1 0 ![1, 0] ![fun _ => 1, fun _ => 1]
        ![fun _ => 0, fun _ => 7] 0 = 1 ∧
      @SuperposeWF.wf_logabs 1 0 ![1, 0] ![fun _ => 1, fun _ => 1]
        ![fun _ => 0, fun _ => 7] 0 = 0) := by
  have h : Complex.abs ((fun _ : Fin 1 => (1 : ℂ)) 0) = 1 := by simp
  have h2 := superpose_degenerate_coeff_value (n := 0) (fun _ => 1)
    (fun _ => 1) (fun _ => 0) (fun _ => 7) 0 h
  exact ⟨by simp, h2.1, h2.2⟩

/-- A wavefunction component as consumed by the combiner: a cached internal
state together with its `updateinternals` state transition (Python mutates
the component in place; here the mutation is explicit state passing), its
`iscomplex` flag and its parameter mapping.  `P` is the type of electron
positions, `M` of masks, `Γ` of internal caches, `PV` of parameter values. -/
structure WFComponent (P M Γ PV : Type) where
  cache : Γ
  updateinternals : ℕ → P → Option M → Γ → Γ
  iscomplex : Bool
  parameters : List (String × PV)

/-- The combiner object of superposewf.py: fixed coefficients, the ordered
component list, the aggregated parameter mapping built at construction
(`Parameters`, namespaced by component index — the aggregation utility lives
in the out-of-scope `pyqmc.multiplywf`), and the `iscomplex`/`dtype` flag
derived once at construction. -/
structure SuperposeWFObj (P M Γ PV : Type) where
  coeffs : List ℂ
  wf_components : List (WFComponent P M Γ PV)
  parameters : List ((ℕ × String) × PV)
  iscomplex : Bool

/-- The `for wf in self.wf_components: wf.updateinternals(e, epos, mask=mask)`
loop of superposewf.py lines 31-32, as a recursion over the component list. -/
def updateComps {P M Γ PV : Type} (e : ℕ) (epos : P) (mask : Option M) :
    List (WFComponent P M Γ PV) → List (WFComponent P M Γ PV)
  | [] => []
  | w :: ws =>
      { w with cache := w.updateinternals e epos mask w.cache }
        :: updateComps e epos mask ws

/-- `SuperposeWF.updateinternals` (superposewf.py lines 27-32): runs the
loop over the components; no other field of the combiner is assigned. -/
def SuperposeWFObj.updateinternals {P M Γ PV : Type}
    (sw : SuperposeWFObj P M Γ PV) (e : ℕ) (epos : P) (mask : Option M) :
    SuperposeWFObj P M Γ PV :=
  { sw with wf_components := updateComps e epos mask sw.wf_components }

theorem updateComps_get? {P M Γ PV : Type} (e : ℕ) (epos : P)
    (mask : Option M) (ws : List (WFComponent P M Γ PV)) (i : ℕ) :
    (updateComps e epos mask ws).get? i = (ws.get? i).map
      (fun w => { w with cache := w.updateinternals e epos mask w.cache }) := by
  induction ws generalizing i with
  | nil => simp [updateComps]
  | cons w ws ih =>
      cases i with
      | zero => simp [updateComps]
      | succ i => simpa [updateComps] using ih i

theorem updateComps_length {P M Γ PV : Type} (e : ℕ) (epos : P)
    (mask : Option M) (ws : List (WFComponent P M Γ PV)) :
    (updateComps e epos mask ws).length = ws.length := by
  induction ws with
  | nil => rfl
  | cons w ws ih => simpa [updateComps] using ih

/-- C9: updateinternals passthrough — `SuperposeWF.updateinternals(e, epos,
mask)` forwards the call with identical arguments to every component in
order (component `i` of the result is component `i` of the input with its
cache advanced by its own `updateinternals e epos mask`, all other component
data untouched), and leaves every field of the combiner itself — `coeffs`,
`parameters`, `iscomplex`/dtype — unchanged; the combiner holds no cache of
its own. -/
theorem superpose_updateinternals_passthrough {P M Γ PV : Type}
    (sw : SuperposeWFObj P M Γ PV) (e : ℕ) (epos : P) (mask : Option M) :
    (sw.updateinternals e epos mask).coeffs = sw.coeffs ∧
    (sw.updateinternals e epos mask).parameters = sw.parameters ∧
    (sw.updateinternals e epos mask).iscomplex = sw.iscomplex ∧
    (sw.updateinternals e epos mask).wf_components.length
      = sw.wf_components.length ∧
    ∀ i : ℕ, ((sw.updateinternals e epos mask).wf_components.get? i)
      = (sw.wf_components.get? i).map
        (fun w => { w with cache := w.updateinternals e epos mask w.cache }) :=
  ⟨rfl, rfl, rfl, updateComps_length e epos mask sw.wf_components,
    fun i => updateComps_get? e epos mask sw.wf_components i⟩

namespace SuperposeWF

/-- Embedding of `SuperposeWF.pgradient` (superposewf.py lines 138-149): for
each component index `iwf` and each key of that component's own `pgradient()`
mapping, the entry is multiplied elementwise (einsum `'i...,i->i...'` over
the configuration axis) by `ratio_current_config()[iwf,:]`; the per-component
dictionaries are merged into one mapping namespaced by component index (the
`Parameters` aggregation of `pyqmc.multiplywf`, modelled from the spec as
the `(component index, parameter name)`-keyed union).  The combiner's
coefficients contribute no key. -/
noncomputable def pgradient {m n : ℕ} (c : Fin (m + 1) → ℂ)
    (s : Fin (m + 1) → Fin (n + 1) → ℂ) (l : Fin (m + 1) → Fin (n + 1) → ℝ)
    (pg : Fin (m + 1) → List (String × (Fin (n + 1) → ℂ))) :
    List ((Fin (m + 1) × String) × (Fin (n + 1) → ℂ)) :=
  (List.finRange (m + 1)).flatMap (fun i => (pg i).map
    (fun kv => ((i, kv.1), fun j => kv.2 j * ratio_current_config c s l i j)))

end SuperposeWF

/-- C8: Combiner pgradient weighting — the key set of the combiner's
`pgradient()` is exactly the union over components of that component's own
parameter names, namespaced by component index (so the combiner's
coefficients appear nowhere in the returned parameter set), and for every
component `i` and every entry `(k, v)` of that component's `pgradient()` the
result contains the entry `((i, k), v · ratio_current_config_i)`,
the elementwise product over configurations. -/
theorem superpose_pgradient_weighting {m n : ℕ} (c : Fin (m + 1) → ℂ)
    (s : Fin (m + 1) → Fin (n + 1) → ℂ) (l : Fin (m + 1) → Fin (n + 1) → ℝ)
    (pg : Fin (m + 1) → List (String × (Fin (n + 1) → ℂ))) :
    ((SuperposeWF.pgradient c s l pg).map Prod.fst
      = (List.finRange (m + 1)).flatMap
          (fun i => (pg i).map (fun kv => (i, kv.1)))) ∧
    ∀ i kv, kv ∈ pg i →
      ((i, kv.1), fun j => kv.2 j * SuperposeWF.ratio_current_config c s l i j)
        ∈ SuperposeWF.pgradient c s l pg := by
  constructor
  · unfold SuperposeWF.pgradient
    rw [List.map_flatMap]
    refine congrArg _ (funext fun i => ?_)
    rw [List.map_map]
    rfl
  · intro i kv hkv
    unfold SuperposeWF.pgradient
    exact List.mem_flatMap.mpr ⟨i, List.mem_finRange i,
      List.mem_map.mpr ⟨kv, hkv, rfl⟩⟩

/-- Witness for C8: a one-component, one-configuration combiner whose
component declares a single parameter named `a`. -/
theorem superpose_pgradient_weighting_witness :
    ("a", fun _ : Fin 1 => (1 : ℂ)) ∈
      (fun _ : Fin 1 => [("a", fun _ : Fin 1 => (1 : ℂ))]) 0 ∧
    (((0 : Fin 1), "a"), fun j => (fun _ : Fin 1 => (1 : ℂ)) j *
        @SuperposeWF.ratio_current_config 0 0 (fun _ => 1) (fun _ _ => 1)
          (fun _ _ => 0) 0 j)
      ∈ @SuperposeWF.pgradient 0 0 (fun _ => 1) (fun _ _ => 1) (fun _ _ => 0)
          (fun _ => [("a", fun _ => 1)]) := by
  have hmem : ("a", fun _ : Fin 1 => (1 : ℂ)) ∈
      (fun _ : Fin 1 => [("a", fun _ : Fin 1 => (1 : ℂ))]) 0 :=
    List.mem_singleton.mpr rfl
  exact ⟨hmem, (superpose_pgradient_weighting (fun _ => 1) (fun _ _ => 1)
    (fun _ _ => 0) (fun _ => [("a", fun _ => 1)])).2 0 _ hmem⟩

/-- numpy's `np.squeeze` on a shape: every axis of length exactly 1 is
removed. -/
def npSqueeze (sh : List ℕ) : List ℕ := sh.filter (fun d => d != 1)

/-- The shape of the internal `ratio` array built by the einsum of
`ratio_current_config` (superposewf.py line 63) and `ratio` (line 85) before
the squeeze, as a function of the component count, the configuration count
and the mask argument.  With `mask=None`, numpy treats the index `None` in
`wf_vals[:, 0, mask]` as `np.newaxis`, so a unit axis is inserted between
the component and configuration axes, giving `(ncomp, 1, nconf)`; with a
boolean mask the selected configurations form the second axis, giving
`(ncomp, nsel)` where `nsel` is the number of `True` entries. -/
def ratioPreShape (ncomp nconf : ℕ) (mask : Option (List Bool)) : List ℕ :=
  match mask with
  | none => [ncomp, 1, nconf]
  | some mk => [ncomp, mk.count true]

/-- The shape returned by `ratio_current_config`/`ratio` after line 64/86:
`if ratio.shape[1] == 1: ratio = np.squeeze(ratio)`. -/
def ratioReturnShape (ncomp nconf : ℕ) (mask : Option (List Bool)) : List ℕ :=
  if (ratioPreShape ncomp nconf mask).get? 1 = some 1
  then npSqueeze (ratioPreShape ncomp nconf mask)
  else ratioPreShape ncomp nconf mask

/-- C10 counterexample: for a 2-component, 2-configuration batch with
`mask=None`, the internal ratio array's second axis has length exactly 1
(it is the unit axis inserted by indexing with `None`), yet the returned
shape is `[2, 2]` — the configuration axis is NOT removed, contradicting the
claim that a unit second axis means the configuration axis is squeezed
away (which would give shape `[2]`). -/
theorem ratio_shape_claim_counterexample :
    (ratioPreShape 2 2 none).get? 1 = some 1 ∧
    ratioReturnShape 2 2 none = [2, 2] ∧
    ratioReturnShape 2 2 none ≠ [2] := by
  refine ⟨rfl, ?_, ?_⟩ <;> decide

/-- C10 amended: the internal array's second axis has length 1 always when
`mask=None` (the `None` index inserts a unit axis), and, for an explicit
boolean mask, exactly when a single configuration is selected.  In either
case `np.squeeze` removes EVERY unit-length axis: with `mask=None` the
inserted axis always disappears and the configuration (and component) axis
survives iff its length is not 1; with a mask selecting a single
configuration the configuration axis is removed (as is a unit component
axis); for a mask selecting any other number of configurations the shape
`(ncomp, nsel)` is returned unchanged.  The public result shape is therefore
discontinuous in the (selected) batch size. -/
theorem ratio_return_shape_squeeze (ncomp nconf : ℕ) (mk : List Bool) :
    ratioReturnShape ncomp nconf none = npSqueeze [ncomp, nconf] ∧
    (mk.count true = 1 →
      ratioReturnShape ncomp nconf (some mk) = npSqueeze [ncomp]) ∧
    (mk.count true ≠ 1 →
      ratioReturnShape ncomp nconf (some mk) = [ncomp, mk.count true]) := by
  refine ⟨?_, fun h1 => ?_, fun h1 => ?_⟩
  · simp [ratioReturnShape, ratioPreShape, npSqueeze, List.filter]
  · simp [ratioReturnShape, ratioPreShape, npSqueeze, h1, List.filter]
  · simp [ratioReturnShape, ratioPreShape, npSqueeze, h1, List.filter]

/-- Witness for C10's amended statement: a mask selecting two of three
configurations keeps the `(ncomp, nsel)` shape, and a mask selecting one
configuration drops it to `(ncomp,)`. -/
theorem ratio_return_shape_squeeze_witness :
    (([true, true, false].count true ≠ 1) ∧
      ratioReturnShape 2 3 (some [true, true, false])
        = [2, [true, true, false].count true]) ∧
    (([true, false, false].count true = 1) ∧
      ratioReturnShape 2 3 (some [true, false, false]) = npSqueeze [2]) :=
  ⟨⟨by decide, (ratio_return_shape_squeeze 2 3 [true, true, false]).2.2
      (by decide)⟩,
   ⟨by decide, (ratio_return_shape_squeeze 2 3 [true, false, false]).2.1
      (by decide)⟩⟩

/-!
Embedding of `pyqmc/func3d.py`.  The batched numpy arrays act independently
on each batch element, so each function is modelled on one element: a
displacement `rvec : Fin 3 → ℝ` and its radius `r : ℝ`.  A masked
assignment `out = zeros(...); out[mask] = formula` with `mask = r < rcut`
becomes `if r < rcut then formula else 0` on the element.
-/

namespace GaussianFunction

/-- `exp(-exponent * r * r)` (func3d.py line 40); the `x` argument of the
source is unused by `value`. -/
noncomputable def value (exponent : ℝ) (r : ℝ) : ℝ :=
  Real.exp (-exponent * r * r)

/-- func3d.py lines 42-51. -/
noncomputable def gradient (exponent : ℝ) (x : Fin 3 → ℝ) (r : ℝ) :
    Fin 3 → ℝ :=
  fun k => -2 * exponent * x k * value exponent r

/-- func3d.py lines 53-56: fused gradient and value. -/
noncomputable def gradient_value (exponent : ℝ) (x : Fin 3 → ℝ) (r : ℝ) :
    (Fin 3 → ℝ) × ℝ :=
  (fun k => -2 * exponent * x k * value exponent r, value exponent r)

/-- func3d.py lines 58-68: per-axis diagonal second partials. -/
noncomputable def laplacian (exponent : ℝ) (x : Fin 3 → ℝ) (r : ℝ) :
    Fin 3 → ℝ :=
  fun k => (4 * exponent * exponent * x k * x k - 2 * exponent)
    * value exponent r

/-- func3d.py lines 70-82: fused gradient and laplacian. -/
noncomputable def gradient_laplacian (exponent : ℝ) (x : Fin 3 → ℝ)
    (r : ℝ) : (Fin 3 → ℝ) × (Fin 3 → ℝ) :=
  (fun k => -2 * exponent * x k * value exponent r,
   fun k => (4 * exponent * exponent * x k * x k - 2 * exponent)
     * value exponent r)

end GaussianFunction

namespace PadeFunction

/-- `(a/(1+a))^2` with `a = alphak*r` (func3d.py lines 104-112). -/
noncomputable def value (alphak : ℝ) (r : ℝ) : ℝ :=
  (alphak * r / (1 + alphak * r)) ^ 2

/-- func3d.py lines 114-124. -/
noncomputable def gradient (alphak : ℝ) (rvec : Fin 3 → ℝ) (r : ℝ) :
    Fin 3 → ℝ :=
  fun k => 2 * alphak ^ 2 / (1 + alphak * r) ^ 3 * rvec k

/-- func3d.py lines 126-131: fused gradient and value. -/
noncomputable def gradient_value (alphak : ℝ) (rvec : Fin 3 → ℝ) (r : ℝ) :
    (Fin 3 → ℝ) × ℝ :=
  (fun k => 2 * alphak ^ 2 / (1 + alphak * r) ^ 3 * rvec k,
   (alphak * r / (1 + alphak * r)) ^ 2)

/-- func3d.py lines 133-148, with the source's `(1+a)**(-3)` power. -/
noncomputable def laplacian (alphak : ℝ) (rvec : Fin 3 → ℝ) (r : ℝ) :
    Fin 3 → ℝ :=
  fun k => 2 * alphak ^ 2 * (1 + alphak * r) ^ (-3 : ℤ)
    * (1 - 3 * (alphak * r) / (1 + alphak * r) * (rvec k / r) ^ 2)

/-- func3d.py lines 150-162: fused gradient and laplacian sharing `temp`. -/
noncomputable def gradient_laplacian (alphak : ℝ) (rvec : Fin 3 → ℝ)
    (r : ℝ) : (Fin 3 → ℝ) × (Fin 3 → ℝ) :=
  (fun k => 2 * alphak ^ 2 / (1 + alphak * r) ^ 3 * rvec k,
   fun k => 2 * alphak ^ 2 / (1 + alphak * r) ^ 3
     * (1 - 3 * (alphak * r) / (1 + alphak * r) * (rvec k / r) ^ 2))

end PadeFunction

/-- `polypadevalue(z, beta) = (1-p)/(1+beta*p)` with
`p = z*z*(6-8z+3z^2)` (func3d.py lines 176-179). -/
noncomputable def polypadevalue (z beta : ℝ) : ℝ :=
  (1 - z * z * (6 - 8 * z + 3 * z * z))
    / (1 + beta * (z * z * (6 - 8 * z + 3 * z * z)))

namespace PolyPadeFunction

/-- func3d.py lines 195-211: mask `r < rcut` applied before evaluating
`polypadevalue(r/rcut, beta)`; zero outside. -/
noncomputable def value (beta rcut : ℝ) (r : ℝ) : ℝ :=
  if r < rcut then polypadevalue (r / rcut) beta else 0

/-- func3d.py lines 236-253: chain rule `dbdp * dpdz * dzdx` inside the
mask, zero outside. -/
noncomputable def gradient (beta rcut : ℝ) (rvec : Fin 3 → ℝ) (r : ℝ) :
    Fin 3 → ℝ :=
  if r < rcut then
    fun k =>
      (-(1 + beta) / (1 + beta * ((r / rcut) * (r / rcut)
          * (6 - 8 * (r / rcut) + 3 * (r / rcut) * (r / rcut)))) ^ 2)
        * (12 * (r / rcut) * ((r / rcut) * (r / rcut) - 2 * (r / rcut) + 1))
        * (rvec k / (r * rcut))
  else fun _ => 0

/-- func3d.py lines 213-234: fused gradient and value. -/
noncomputable def gradient_value (beta rcut : ℝ) (rvec : Fin 3 → ℝ)
    (r : ℝ) : (Fin 3 → ℝ) × ℝ :=
  if r < rcut then
    ((fun k =>
      (-(1 + beta) / (1 + beta * ((r / rcut) * (r / rcut)
          * (6 - 8 * (r / rcut) + 3 * (r / rcut) * (r / rcut)))) ^ 2)
        * (12 * (r / rcut) * ((r / rcut) * (r / rcut) - 2 * (r / rcut) + 1))
        * (rvec k / (r * rcut))),
     (1 - (r / rcut) * (r / rcut)
          * (6 - 8 * (r / rcut) + 3 * (r / rcut) * (r / rcut)))
       / (1 + beta * ((r / rcut) * (r / rcut)
          * (6 - 8 * (r / rcut) + 3 * (r / rcut) * (r / rcut)))))
  else (fun _ => 0, 0)

/-- func3d.py lines 265-294: fused gradient and laplacian; the laplacian
assembles `dbdp*dpdz*d2zdx2 + gradmask*(d2bdp2/dbdp*dpdz*dzdx +
d2pdz2/dpdz*dzdx)`. -/
noncomputable def gradient_laplacian (beta rcut : ℝ) (rvec : Fin 3 → ℝ)
    (r : ℝ) : (Fin 3 → ℝ) × (Fin 3 → ℝ) :=
  if r < rcut then
    ((fun k =>
      (-(1 + beta) / (1 + beta * ((r / rcut) * (r / rcut)
          * (6 - 8 * (r / rcut) + 3 * (r / rcut) * (r / rcut)))) ^ 2)
        * (12 * (r / rcut) * ((r / rcut) * (r / rcut) - 2 * (r / rcut) + 1))
        * (rvec k / (r * rcut))),
     (fun k =>
      (-(1 + beta) / (1 + beta * ((r / rcut) * (r / rcut)
          * (6 - 8 * (r / rcut) + 3 * (r / rcut) * (r / rcut)))) ^ 2)
        * (12 * (r / rcut) * ((r / rcut) * (r / rcut) - 2 * (r / rcut) + 1))
        * ((1 - (rvec k / r) ^ 2) / (r * rcut))
      + ((-(1 + beta) / (1 + beta * ((r / rcut) * (r / rcut)
            * (6 - 8 * (r / rcut) + 3 * (r / rcut) * (r / rcut)))) ^ 2)
          * (12 * (r / rcut) * ((r / rcut) * (r / rcut) - 2 * (r / rcut) + 1))
          * (rvec k / (r * rcut)))
        * ((-2 * beta / (1 + beta * ((r / rcut) * (r / rcut)
              * (6 - 8 * (r / rcut) + 3 * (r / rcut) * (r / rcut)))))
            * (12 * (r / rcut) * ((r / rcut) * (r / rcut) - 2 * (r / rcut) + 1))
            * (rvec k / (r * rcut))
          + ((3 * (r / rcut) - 1) / ((r / rcut) * ((r / rcut) - 1)))
            * (rvec k / (r * rcut)))))
  else (fun _ => 0, fun _ => 0)

/-- func3d.py lines 255-263: `laplacian` returns the second component of
`gradient_laplacian`. -/
noncomputable def laplacian (beta rcut : ℝ) (rvec : Fin 3 → ℝ) (r : ℝ) :
    Fin 3 → ℝ :=
  (gradient_laplacian beta rcut rvec r).2

/-- func3d.py lines 296-316: `pgradient` computes `derivrcut`/`derivbeta`
from the analytic formula on every element and afterwards zeroes the
entries with `mask = r >= rcut`.  The pair is `(d/drcut, d/dbeta)`. -/
noncomputable def pgradient (beta rcut : ℝ) (r : ℝ) : ℝ × ℝ :=
  if rcut ≤ r then (0, 0)
  else
    ((-(1 + beta) / (1 + beta * ((r / rcut) * (r / rcut)
        * (6 - 8 * (r / rcut) + 3 * (r / rcut) * (r / rcut)))) ^ 2)
      * (12 * (r / rcut) * ((r / rcut) * (r / rcut) - 2 * (r / rcut) + 1))
      * (-(r / rcut) / rcut),
     -((r / rcut) * (r / rcut) * (6 - 8 * (r / rcut) + 3 * (r / rcut) * (r / rcut)))
      * (1 - (r / rcut) * (r / rcut) * (6 - 8 * (r / rcut) + 3 * (r / rcut) * (r / rcut)))
      / (1 + beta * ((r / rcut) * (r / rcut)
        * (6 - 8 * (r / rcut) + 3 * (r / rcut) * (r / rcut)))) ^ 2)

end PolyPadeFunction

namespace CutoffCuspFunction

/-- func3d.py lines 331-344: masked value `-p/(1+gamma*p) + 1/(3+gamma)`
with `p = y - y^2 + y^3/3`, `y = r/rcut`; the whole (zero-padded) array is
multiplied by `rcut` on return. -/
noncomputable def value (gamma rcut : ℝ) (r : ℝ) : ℝ :=
  (if r < rcut then
    -(r / rcut - (r / rcut) * (r / rcut)
        + (r / rcut) * (r / rcut) * (r / rcut) / 3)
      / (1 + gamma * (r / rcut - (r / rcut) * (r / rcut)
        + (r / rcut) * (r / rcut) * (r / rcut) / 3))
      + 1 / (3 + gamma)
   else 0) * rcut

/-- func3d.py lines 346-365: masked gradient `-rvec * a * c * rcut` with
`a = 1 - 2y + y^2`, `b = y - y^2 + y^3/3`, `c = 1/(1+gamma*b)^2/(rcut*r)`. -/
noncomputable def gradient (gamma rcut : ℝ) (rvec : Fin 3 → ℝ) (r : ℝ) :
    Fin 3 → ℝ :=
  if r < rcut then
    fun k => -(rvec k)
      * (1 - 2 * (r / rcut) + (r / rcut) * (r / rcut))
      * (1 / (1 + gamma * (r / rcut - (r / rcut) * (r / rcut)
          + (r / rcut) * (r / rcut) * (r / rcut) / 3)) ^ 2 / (rcut * r))
      * rcut
  else fun _ => 0

/-- func3d.py lines 367-389: fused gradient and value. -/
noncomputable def gradient_value (gamma rcut : ℝ) (rvec : Fin 3 → ℝ)
    (r : ℝ) : (Fin 3 → ℝ) × ℝ :=
  ((if r < rcut then
      fun k => -(rvec k)
        * (1 - 2 * (r / rcut) + (r / rcut) * (r / rcut))
        * (1 / (1 + gamma * (r / rcut - (r / rcut) * (r / rcut)
            + (r / rcut) * (r / rcut) * (r / rcut) / 3)) ^ 2 / (rcut * r))
        * rcut
    else fun _ => 0),
   (if r < rcut then
      -(r / rcut - (r / rcut) * (r / rcut)
          + (r / rcut) * (r / rcut) * (r / rcut) / 3)
        / (1 + gamma * (r / rcut - (r / rcut) * (r / rcut)
          + (r / rcut) * (r / rcut) * (r / rcut) / 3))
        + 1 / (3 + gamma)
    else 0) * rcut)

/-- func3d.py lines 391-414: masked laplacian
`-rcut * c * (a + rvec^2 * temp)` with
`temp = 2(y-1)/(rcut*r) - a/r^2 - 2*a^2*c*gamma*(1+gamma*b)`. -/
noncomputable def laplacian (gamma rcut : ℝ) (rvec : Fin 3 → ℝ) (r : ℝ) :
    Fin 3 → ℝ :=
  if r < rcut then
    fun k => -rcut
      * (1 / (1 + gamma * (r / rcut - (r / rcut) * (r / rcut)
          + (r / rcut) * (r / rcut) * (r / rcut) / 3)) ^ 2 / (rcut * r))
      * ((1 - 2 * (r / rcut) + (r / rcut) * (r / rcut))
        + (rvec k) ^ 2
          * (2 * ((r / rcut) - 1) / (rcut * r)
            - (1 - 2 * (r / rcut) + (r / rcut) * (r / rcut)) / r ^ 2
            - 2 * (1 - 2 * (r / rcut) + (r / rcut) * (r / rcut))
              * (1 - 2 * (r / rcut) + (r / rcut) * (r / rcut))
              * (1 / (1 + gamma * (r / rcut - (r / rcut) * (r / rcut)
                  + (r / rcut) * (r / rcut) * (r / rcut) / 3)) ^ 2 / (rcut * r))
              * gamma
              * (1 + gamma * (r / rcut - (r / rcut) * (r / rcut)
                  + (r / rcut) * (r / rcut) * (r / rcut) / 3))))
  else fun _ => 0

/-- func3d.py lines 416-442: fused gradient and laplacian
(`grad[mask] = -rcut * a * c * rvec`). -/
noncomputable def gradient_laplacian (gamma rcut : ℝ) (rvec : Fin 3 → ℝ)
    (r : ℝ) : (Fin 3 → ℝ) × (Fin 3 → ℝ) :=
  (if r < rcut then
    fun k => -rcut
      * (1 - 2 * (r / rcut) + (r / rcut) * (r / rcut))
      * (1 / (1 + gamma * (r / rcut - (r / rcut) * (r / rcut)
          + (r / rcut) * (r / rcut) * (r / rcut) / 3)) ^ 2 / (rcut * r))
      * rvec k
   else fun _ => 0,
   if r < rcut then
    fun k => -rcut
      * (1 / (1 + gamma * (r / rcut - (r / rcut) * (r / rcut)
          + (r / rcut) * (r / rcut) * (r / rcut) / 3)) ^ 2 / (rcut * r))
      * ((1 - 2 * (r / rcut) + (r / rcut) * (r / rcut))
        + (rvec k) ^ 2
          * (2 * ((r / rcut) - 1) / (rcut * r)
            - (1 - 2 * (r / rcut) + (r / rcut) * (r / rcut)) / r ^ 2
            - 2 * (1 - 2 * (r / rcut) + (r / rcut) * (r / rcut))
              * (1 - 2 * (r / rcut) + (r / rcut) * (r / rcut))
              * (1 / (1 + gamma * (r / rcut - (r / rcut) * (r / rcut)
                  + (r / rcut) * (r / rcut) * (r / rcut) / 3)) ^ 2 / (rcut * r))
              * gamma
              * (1 + gamma * (r / rcut - (r / rcut) * (r / rcut)
                  + (r / rcut) * (r / rcut) * (r / rcut) / 3))))
   else fun _ => 0)

/-- func3d.py lines 444-468: `pgradient` computes `dfdrcut = y*a/(1+gamma*b)^2
+ val` and `dfdgamma = ((b/(1+gamma*b))^2 - 1/(3+gamma)^2)*rcut` on every
element and afterwards zeroes the entries with the STRICT mask `r > rcut`
(so `r = rcut` is evaluated, not zeroed).  The pair is
`(d/drcut, d/dgamma)`. -/
noncomputable def pgradient (gamma rcut : ℝ) (r : ℝ) : ℝ × ℝ :=
  if rcut < r then (0, 0)
  else
    ((r / rcut) * (1 - 2 * (r / rcut) + (r / rcut) * (r / rcut))
        / (1 + gamma * (r / rcut - (r / rcut) * (r / rcut)
          + (r / rcut) * (r / rcut) * (r / rcut) / 3)) ^ 2
      + (-(r / rcut - (r / rcut) * (r / rcut)
            + (r / rcut) * (r / rcut) * (r / rcut) / 3)
          / (1 + gamma * (r / rcut - (r / rcut) * (r / rcut)
            + (r / rcut) * (r / rcut) * (r / rcut) / 3))
        + 1 / (3 + gamma)),
     (((r / rcut - (r / rcut) * (r / rcut)
          + (r / rcut) * (r / rcut) * (r / rcut) / 3)
        / (1 + gamma * (r / rcut - (r / rcut) * (r / rcut)
          + (r / rcut) * (r / rcut) * (r / rcut) / 3))) ^ 2
       - 1 / (3 + gamma) ^ 2) * rcut)

end CutoffCuspFunction

/-- C4: Fused/unfused equivalence — for every radial-function variant
(Gaussian, Padé, Poly-Padé, Cutoff-Cusp) and every displacement/radius
input, `gradient_value` equals the pair `(gradient, value)` and
`gradient_laplacian` equals the pair `(gradient, laplacian)` exactly. -/
theorem func3d_fused_unfused_equivalence :
    (∀ (e : ℝ) (x : Fin 3 → ℝ) (r : ℝ),
      GaussianFunction.gradient_value e x r
        = (GaussianFunction.gradient e x r, GaussianFunction.value e r) ∧
      GaussianFunction.gradient_laplacian e x r
        = (GaussianFunction.gradient e x r, GaussianFunction.laplacian e x r)) ∧
    (∀ (a : ℝ) (v : Fin 3 → ℝ) (r : ℝ),
      PadeFunction.gradient_value a v r
        = (PadeFunction.gradient a v r, PadeFunction.value a r) ∧
      PadeFunction.gradient_laplacian a v r
        = (PadeFunction.gradient a v r, PadeFunction.laplacian a v r)) ∧
    (∀ (b c : ℝ) (v : Fin 3 → ℝ) (r : ℝ),
      PolyPadeFunction.gradient_value b c v r
        = (PolyPadeFunction.gradient b c v r, PolyPadeFunction.value b c r) ∧
      PolyPadeFunction.gradient_laplacian b c v r
        = (PolyPadeFunction.gradient b c v r,
           PolyPadeFunction.laplacian b c v r)) ∧
    (∀ (g c : ℝ) (v : Fin 3 → ℝ) (r : ℝ),
      CutoffCuspFunction.gradient_value g c v r
        = (CutoffCuspFunction.gradient g c v r,
           CutoffCuspFunction.value g c r) ∧
      CutoffCuspFunction.gradient_laplacian g c v r
        = (CutoffCuspFunction.gradient g c v r,
           CutoffCuspFunction.laplacian g c v r)) := by
  refine ⟨fun e x r => ⟨rfl, rfl⟩, fun a v r => ⟨rfl, ?_⟩,
    fun b c v r => ⟨?_, ?_⟩, fun g c v r => ⟨rfl, ?_⟩⟩
  · refine Prod.ext_iff.mpr ⟨rfl, funext fun k => ?_⟩
    unfold PadeFunction.gradient_laplacian PadeFunction.laplacian
    simp only [zpow_neg, zpow_ofNat]
    ring
  · unfold PolyPadeFunction.gradient_value PolyPadeFunction.gradient
      PolyPadeFunction.value polypadevalue
    split_ifs with h <;> rfl
  · unfold PolyPadeFunction.gradient_laplacian PolyPadeFunction.gradient
      PolyPadeFunction.laplacian
    refine Prod.ext_iff.mpr ⟨?_, rfl⟩
    unfold PolyPadeFunction.gradient_laplacian
    split_ifs with h <;> rfl
  · unfold CutoffCuspFunction.gradient_laplacian CutoffCuspFunction.gradient
      CutoffCuspFunction.laplacian
    refine Prod.ext_iff.mpr ⟨?_, rfl⟩
    split_ifs with h
    · exact funext fun k => by ring
    · rfl

theorem CutoffCuspFunction.pgradient_at_rcut (g c : ℝ) (hc : 0 < c) :
    CutoffCuspFunction.pgradient g c c = (0, 0) := by
  unfold CutoffCuspFunction.pgradient
  rw [if_neg (lt_irrefl c), div_self (ne_of_gt hc)]
  by_cases hg : (3 : ℝ) + g = 0
  · have hgv : g = -3 := by linarith
    subst hgv
    norm_num
  · have h13 : (1 : ℝ) + g * (1 - 1 * 1 + 1 * 1 * 1 / 3) ≠ 0 := by
      intro hz
      exact hg (by linarith)
    refine Prod.ext_iff.mpr ⟨?_, ?_⟩
    · field_simp
      ring
    · field_simp

/-- C3: Cutoff exactness — for the Poly-Padé and Cutoff-Cusp variants with a
positive cutoff radius, value, gradient (all three Cartesian components),
laplacian (all three components) and both entries of the pgradient mapping
are exactly zero at every batch element whose radius satisfies `r ≥ rcut`.
(For Cutoff-Cusp's `pgradient` the zeroing mask is the strict `r > rcut`, so
at `r = rcut` the analytic formula is evaluated; in exact real arithmetic it
cancels to zero there.) -/
theorem func3d_cutoff_exactness (b g c : ℝ) (v : Fin 3 → ℝ) (r : ℝ)
    (hr : c ≤ r) (hc : 0 < c) :
    PolyPadeFunction.value b c r = 0 ∧
    (∀ k, PolyPadeFunction.gradient b c v r k = 0) ∧
    (∀ k, PolyPadeFunction.laplacian b c v r k = 0) ∧
    PolyPadeFunction.pgradient b c r = (0, 0) ∧
    CutoffCuspFunction.value g c r = 0 ∧
    (∀ k, CutoffCuspFunction.gradient g c v r k = 0) ∧
    (∀ k, CutoffCuspFunction.laplacian g c v r k = 0) ∧
    CutoffCuspFunction.pgradient g c r = (0, 0) := by
  have hnlt : ¬ r < c := not_lt.mpr hr
  refine ⟨?_, ?_, ?_, ?_, ?_, ?_, ?_, ?_⟩
  · unfold PolyPadeFunction.value
    rw [if_neg hnlt]
  · intro k
    unfold PolyPadeFunction.gradient
    rw [if_neg hnlt]
  · intro k
    unfold PolyPadeFunction.laplacian PolyPadeFunction.gradient_laplacian
    rw [if_neg hnlt]
  · unfold PolyPadeFunction.pgradient
    rw [if_pos hr]
  · unfold CutoffCuspFunction.value
    rw [if_neg hnlt, zero_mul]
  · intro k
    unfold CutoffCuspFunction.gradient
    rw [if_neg hnlt]
  · intro k
    unfold CutoffCuspFunction.laplacian
    rw [if_neg hnlt]
  · rcases lt_or_eq_of_le hr with h | h
    · unfold CutoffCuspFunction.pgradient
      rw [if_pos h]
    · subst h
      exact CutoffCuspFunction.pgradient_at_rcut g c hc

/-- Witness for C3 with `beta = gamma = 0`, `rcut = 1`, `r = 2`. -/
theorem func3d_cutoff_exactness_witness :
    (1 : ℝ) ≤ 2 ∧ (0 : ℝ) < 1 ∧
    (PolyPadeFunction.value 0 1 2 = 0 ∧
      CutoffCuspFunction.pgradient 0 1 2 = (0, 0)) := by
  have h := func3d_cutoff_exactness 0 0 1 (fun _ => 0) 2
    (by norm_num) (by norm_num)
  exact ⟨by norm_num, by norm_num, h.1, h.2.2.2.2.2.2.2⟩

/-- Division instrumented for safety analysis: `none` when the denominator
is zero (numpy would emit a divide/invalid warning and produce `inf`/`nan`),
otherwise the quotient.  Each `cdiv` below sits exactly where the source
performs a division. -/
noncomputable def cdiv (a b : ℝ) : Option ℝ :=
  if b = 0 then none else some (a / b)

namespace PolyPadeFunction

/-- Checked evaluation of `PolyPadeFunction.value`: mask first, then
`z = r/rcut` and the rational form of `polypadevalue`. -/
noncomputable def valueChecked (beta rcut : ℝ) (r : ℝ) : Option ℝ :=
  if r < rcut then
    (cdiv r rcut).bind fun z =>
      cdiv (1 - z * z * (6 - 8 * z + 3 * z * z))
        (1 + beta * (z * z * (6 - 8 * z + 3 * z * z)))
  else some 0

/-- Checked evaluation of `PolyPadeFunction.gradient`: mask first, then
`z = r/rcut`, `dbdp = -(1+beta)/(1+beta*p)^2`, `dzdx = rvec/(r*rcut)`. -/
noncomputable def gradientChecked (beta rcut : ℝ) (rvec : Fin 3 → ℝ)
    (r : ℝ) (k : Fin 3) : Option ℝ :=
  if r < rcut then
    (cdiv r rcut).bind fun z =>
    (cdiv (-(1 + beta)) ((1 + beta * (z * z * (6 - 8 * z + 3 * z * z))) ^ 2)).bind
      fun dbdp =>
    (cdiv (rvec k) (r * rcut)).bind fun dzdx =>
      some (dbdp * (12 * z * (z * z - 2 * z + 1)) * dzdx)
  else some 0

/-- Checked evaluation of the laplacian branch of
`PolyPadeFunction.gradient_laplacian`: mask first, then the divisions of
lines 279-293 in source order (`z`, `dbdp`, `dzdx`, `d2pdz2_over_dpdz =
(3z-1)/(z(z-1))`, `d2bdp2_over_dbdp = -2*beta/(1+beta*p)`, `rvec/r` and
`d2zdx2 = (1-(rvec/r)^2)/(r*rcut)`). -/
noncomputable def laplacianChecked (beta rcut : ℝ) (rvec : Fin 3 → ℝ)
    (r : ℝ) (k : Fin 3) : Option ℝ :=
  if r < rcut then
    (cdiv r rcut).bind fun z =>
    (cdiv (-(1 + beta)) ((1 + beta * (z * z * (6 - 8 * z + 3 * z * z))) ^ 2)).bind
      fun dbdp =>
    (cdiv (rvec k) (r * rcut)).bind fun dzdx =>
    (cdiv (3 * z - 1) (z * (z - 1))).bind fun dd =>
    (cdiv (-2 * beta) (1 + beta * (z * z * (6 - 8 * z + 3 * z * z)))).bind
      fun db2 =>
    (cdiv (rvec k) r).bind fun xr =>
    (cdiv (1 - xr ^ 2) (r * rcut)).bind fun d2zdx2 =>
      some (dbdp * (12 * z * (z * z - 2 * z + 1)) * d2zdx2
        + (dbdp * (12 * z * (z * z - 2 * z + 1)) * dzdx)
          * (db2 * (12 * z * (z * z - 2 * z + 1)) * dzdx + dd * dzdx))
  else some 0

/-- Checked evaluation of `PolyPadeFunction.pgradient`: the formula is
evaluated on EVERY element (`z`, `dbdp`, `derivrcut = dbdp*dpdz*(-z/rcut)`,
`derivbeta`), and the zeroing mask `r >= rcut` is applied only afterwards,
exactly as in func3d.py lines 296-316. -/
noncomputable def pgradientChecked (beta rcut : ℝ) (r : ℝ) :
    Option (ℝ × ℝ) :=
  ((cdiv r rcut).bind fun z =>
   (cdiv (-(1 + beta)) ((1 + beta * (z * z * (6 - 8 * z + 3 * z * z))) ^ 2)).bind
     fun dbdp =>
   (cdiv (-z) rcut).bind fun mzr =>
   (cdiv (-(z * z * (6 - 8 * z + 3 * z * z))
       * (1 - z * z * (6 - 8 * z + 3 * z * z)))
     ((1 + beta * (z * z * (6 - 8 * z + 3 * z * z))) ^ 2)).bind fun derivbeta =>
     some (dbdp * (12 * z * (z * z - 2 * z + 1)) * mzr, derivbeta)).map
    (fun d => if rcut ≤ r then (0, 0) else d)

end PolyPadeFunction

namespace CutoffCuspFunction

/-- Checked evaluation of `CutoffCuspFunction.value`: mask first, then
`y = r/rcut` and the two divisions of the value formula; the zero-padded
result is multiplied by `rcut` on return. -/
noncomputable def valueChecked (gamma rcut : ℝ) (r : ℝ) : Option ℝ :=
  (if r < rcut then
    (cdiv r rcut).bind fun y =>
    (cdiv (-(y - y * y + y * y * y / 3))
        (1 + gamma * (y - y * y + y * y * y / 3))).bind fun t1 =>
    (cdiv 1 (3 + gamma)).bind fun t2 =>
      some (t1 + t2)
  else some 0).map (fun x => x * rcut)

/-- Checked evaluation of `CutoffCuspFunction.gradient`: mask first, then
`y = r/rcut` and `c = 1/(1+gamma*b)^2/(rcut*r)` (two divisions). -/
noncomputable def gradientChecked (gamma rcut : ℝ) (rvec : Fin 3 → ℝ)
    (r : ℝ) (k : Fin 3) : Option ℝ :=
  if r < rcut then
    (cdiv r rcut).bind fun y =>
    (cdiv 1 ((1 + gamma * (y - y * y + y * y * y / 3)) ^ 2)).bind fun c1 =>
    (cdiv c1 (rcut * r)).bind fun cc =>
      some (-(rvec k) * (1 - 2 * y + y * y) * cc * rcut)
  else some 0

/-- Checked evaluation of `CutoffCuspFunction.laplacian`: mask first, then
`y`, `c` (two divisions), and `temp = 2(y-1)/(rcut*r) - a/r^2 -
2*a^2*c*gamma*(1+gamma*b)` (two more divisions). -/
noncomputable def laplacianChecked (gamma rcut : ℝ) (rvec : Fin 3 → ℝ)
    (r : ℝ) (k : Fin 3) : Option ℝ :=
  if r < rcut then
    (cdiv r rcut).bind fun y =>
    (cdiv 1 ((1 + gamma * (y - y * y + y * y * y / 3)) ^ 2)).bind fun c1 =>
    (cdiv c1 (rcut * r)).bind fun cc =>
    (cdiv (2 * (y - 1)) (rcut * r)).bind fun t1 =>
    (cdiv (1 - 2 * y + y * y) (r ^ 2)).bind fun t2 =>
      some (-rcut * cc * ((1 - 2 * y + y * y)
        + (rvec k) ^ 2 * (t1 - t2
            - 2 * (1 - 2 * y + y * y) * (1 - 2 * y + y * y) * cc * gamma
              * (1 + gamma * (y - y * y + y * y * y / 3)))))
  else some 0

/-- Checked evaluation of `CutoffCuspFunction.pgradient`: the formula —
including the dead assignment `c = a/(1+gamma*b)^2/(rcut*r)` of func3d.py
line 459, which divides by `rcut*r` and whose result is never used — is
evaluated on EVERY element, and the zeroing mask `r > rcut` is applied only
afterwards (lines 444-468). -/
noncomputable def pgradientChecked (gamma rcut : ℝ) (r : ℝ) :
    Option (ℝ × ℝ) :=
  ((cdiv r rcut).bind fun y =>
   (cdiv (1 - 2 * y + y * y)
       ((1 + gamma * (y - y * y + y * y * y / 3)) ^ 2)).bind fun c0 =>
   (cdiv c0 (rcut * r)).bind fun _c =>
   (cdiv (-(y - y * y + y * y * y / 3))
       (1 + gamma * (y - y * y + y * y * y / 3))).bind fun vb =>
   (cdiv 1 (3 + gamma)).bind fun vg =>
   (cdiv (y * (1 - 2 * y + y * y))
       ((1 + gamma * (y - y * y + y * y * y / 3)) ^ 2)).bind fun t1 =>
   (cdiv (y - y * y + y * y * y / 3)
       (1 + gamma * (y - y * y + y * y * y / 3))).bind fun bb =>
   (cdiv 1 ((3 + gamma) ^ 2)).bind fun t3 =>
     some (t1 + (vb + vg), (bb ^ 2 - t3) * rcut)).map
    (fun d => if rcut < r then (0, 0) else d)

end CutoffCuspFunction

/-- C5 counterexample: at `beta = 0`, `rcut = 1`, `rvec = 0`, `r = 0` — a
batch element INSIDE the mask `r < rcut`, at the claimed-safe radius
`r = 0` — the checked evaluation of `PolyPadeFunction.gradient` encounters a
division by zero (`dzdx = rvec/(r*rcut)` with `r = 0`, a 0/0 indeterminate
form), refuting the claim that masking prevents division and indeterminate
forms at `r = 0`. -/
theorem func3d_masking_claim_counterexample :
    PolyPadeFunction.gradientChecked 0 1 (fun _ => 0) 0 0 = none := by
  unfold PolyPadeFunction.gradientChecked cdiv
  rw [if_pos (by norm_num : (0 : ℝ) < 1)]
  norm_num

/-- C5 amended: for Poly-Padé and Cutoff-Cusp, `value`, `gradient` and
`laplacian` apply the boolean mask `r < rcut` BEFORE the analytic formula,
so on masked-out elements (`r ≥ rcut`) no arithmetic is performed and the
checked result is exactly `some 0`; but masking does not protect the
interior point `r = 0`, where the gradient formulas divide by `r·rcut` and
the checked evaluation signals a division by zero; and `pgradient` evaluates
its formula on every element, applying its zeroing mask only afterwards, so
a masked-out element can still encounter a division by zero (witnessed at
`beta = -1/8`, `rcut = 1`, `r = 2`). -/
theorem func3d_mask_before_formula_except_pgradient (b g c : ℝ)
    (v : Fin 3 → ℝ) (r : ℝ) :
    (c ≤ r →
      PolyPadeFunction.valueChecked b c r = some 0 ∧
      (∀ k, PolyPadeFunction.gradientChecked b c v r k = some 0) ∧
      (∀ k, PolyPadeFunction.laplacianChecked b c v r k = some 0) ∧
      CutoffCuspFunction.valueChecked g c r = some 0 ∧
      (∀ k, CutoffCuspFunction.gradientChecked g c v r k = some 0) ∧
      (∀ k, CutoffCuspFunction.laplacianChecked g c v r k = some 0)) ∧
    (r = 0 → 0 < c →
      (∀ k, PolyPadeFunction.gradientChecked b c v r k = none) ∧
      (∀ k, CutoffCuspFunction.gradientChecked g c v r k = none)) ∧
    PolyPadeFunction.pgradientChecked (-(1 : ℝ) / 8) 1 2 = none := by
  refine ⟨fun h => ?_, fun hr0 hc => ?_, ?_⟩
  · have hnlt : ¬ r < c := not_lt.mpr h
    refine ⟨?_, fun k => ?_, fun k => ?_, ?_, fun k => ?_, fun k => ?_⟩
    · unfold PolyPadeFunction.valueChecked
      rw [if_neg hnlt]
    · unfold PolyPadeFunction.gradientChecked
      rw [if_neg hnlt]
    · unfold PolyPadeFunction.laplacianChecked
      rw [if_neg hnlt]
    · unfold CutoffCuspFunction.valueChecked
      rw [if_neg hnlt]
      simp
    · unfold CutoffCuspFunction.gradientChecked
      rw [if_neg hnlt]
    · unfold CutoffCuspFunction.laplacianChecked
      rw [if_neg hnlt]
  · subst hr0
    constructor
    · intro k
      simp [PolyPadeFunction.gradientChecked, cdiv, hc, hc.ne']
    · intro k
      simp [CutoffCuspFunction.gradientChecked, cdiv, hc, hc.ne']
  · norm_num [PolyPadeFunction.pgradientChecked, cdiv]

/-- Witness for C5's amended statement: the masked-out branch at
`rcut = 1 ≤ r = 2` and the `r = 0` branch at `rcut = 1`. -/
theorem func3d_mask_before_formula_except_pgradient_witness :
    ((1 : ℝ) ≤ 2 ∧ PolyPadeFunction.valueChecked 0 1 2 = some 0) ∧
    ((0 : ℝ) = 0 ∧ (0 : ℝ) < 1 ∧
      ∀ k, CutoffCuspFunction.gradientChecked 0 1 (fun _ => 0) 0 k = none) := by
  have h1 := (func3d_mask_before_formula_except_pgradient 0 0 1
    (fun _ => 0) 2).1 (by norm_num)
  have h2 := (func3d_mask_before_formula_except_pgradient 0 0 1
    (fun _ => 0) 0).2.1 rfl (by norm_num)
  exact ⟨⟨by norm_num, h1.1⟩, rfl, by norm_num, h2.2⟩
